import Mathlib

/-
Verification of the risb repository core components against its
natural-language specification.

Covered source files:
  * src/risb/optimize/solver_newton.py  (class NewtonSolver)
  * python/risb/kweight/kweight.py      (class SmearingKWeight)

Modelling conventions:
  * Python floats in the smearing engine are modelled by real numbers
    (the smearing functions use exp).  In the solver, where every claim
    concerns control flow and state plumbing and the only scalar
    operations are addition, multiplication and order comparisons, floats
    are modelled by integers so that every concrete run is
    kernel-computable; all solver theorems quantify over arbitrary
    tolerances and entries of that ordered ring.
  * numpy arrays are flattened vectors of scalars.  Because the abstract
    method update_x is documented to receive lists of arrays while the
    solve loop passes single arrays, Python runtime values are modelled by
    the dynamic type PyVal with one constructor for an ndarray and one for
    a Python list, so the two shapes can be compared.
  * In-place mutation of an object is modelled by explicit state passing:
    a method becomes a function from the old state to the new state, and a
    raised exception becomes an Except.error carrying the state at the
    moment of the raise (the mutations performed before the raise are
    visible in that state, exactly as they are on the Python object).
  * numpy.inf (the default n_restart) is modelled by none in Option Nat.
    For a finite nonnegative integer n, Python evaluates n % inf to n, so
    the restart test (n % n_restart) == 0 is n == 0 when n_restart is
    infinite, and n % r == 0 when n_restart is a finite r >= 1.
  * self.norm stores a 2-norm; the model stores its square (normSq) to
    avoid square roots.  For tol >= 0, norm < tol iff
    normSq < tol*tol, and for tol < 0 the Python comparison norm < tol is
    always false, which the model expresses by the conjunct 0 <= tol.
-/

namespace NewtonSolver

/-- Dynamic Python value: a (flattened) numpy array of scalars, or a
Python list of values.  Used because the solver is untyped at runtime. -/
inductive PyVal where
  | arr : List ℤ → PyVal
  | lst : List PyVal → PyVal
deriving Repr

/-- Squared 2-norm of a value, modelling numpy.linalg.norm(error)**2.
The solver only ever takes the norm of the array returned by the residual
function, so only the arr case is exercised; numpy would reject a
non-numeric nested list, modelled here by 0 on the lst case. -/
def PyVal.normSq : PyVal → ℤ
  | .arr v => (v.map (fun q => q * q)).sum
  | .lst _ => 0

/-- NewtonSolver._insert_vector: prepends vec_new to vec; when a finite
max_size is given and the post-insert length reaches or exceeds it, the
last (oldest) element is popped.  The Python in-place mutation is modelled
by returning the new list. -/
def insert_vector {α : Type} (vec : List α) (vec_new : α) (max_size : Option ℕ) : List α :=
  let v := vec_new :: vec
  match max_size with
  | none => v
  | some m => if m ≤ v.length then v.dropLast else v

/-- The options dictionary passed to NewtonSolver.solve, restricted to the
two keys the method reads and writes.  A missing key is none. -/
structure Options where
  maxiter : Option ℕ
  alpha : Option ℤ
deriving DecidableEq, Repr

/-- Lines 163-166 of solver_newton.py: the in-place writes
options[maxiter] = 1000 and options[alpha] = 1 when the keys are absent.
The returned dictionary is the state of the caller-supplied dictionary
after the call (the writes are in place in Python). -/
def fillOptions (o : Options) : Options :=
  { maxiter := some (o.maxiter.getD 1000), alpha := some (o.alpha.getD 1) }

/-- The default value of the options parameter of solve, a dictionary
already holding both keys.  In Python this single dictionary object is
shared by every call that omits the argument. -/
def defaultOptions : Options := { maxiter := some 1000, alpha := some 1 }

/-- One call of solve that omits the options argument, viewed only through
its effect on the shared default dictionary: the dictionary state before
the call is threaded to the dictionary state after the call. -/
def sharedDefaultAfterCall (d : Options) : Options := fillOptions d

/-- Mutable attributes of a NewtonSolver instance (solver_newton.py,
lines 42-68), plus the constructor configuration. -/
structure SolverState where
  history_size : ℕ
  n_restart : Option ℕ
  x : List PyVal
  g_x : List PyVal
  error : List PyVal
  n : ℕ
  success : Bool
  normSq : Option ℤ
deriving Repr

/-- NewtonSolver.__init__ with the given history_size and n_restart
(none models the numpy.inf default). -/
def newSolver (history_size : ℕ) (n_restart : Option ℕ) : SolverState :=
  { history_size := history_size, n_restart := n_restart,
    x := [], g_x := [], error := [], n := 0, success := false, normSq := none }

/-- The restart test (self.n % self.n_restart) == 0 of line 190.  When
n_restart is numpy.inf, Python evaluates n % inf to n for the finite
nonnegative loop counter n, so the test holds exactly at n = 0.  Python
raises on a modulus of 0; the claims only use n_restart >= 1 or inf. -/
def restartHit (n_restart : Option ℕ) (n : ℕ) : Bool :=
  match n_restart with
  | none => n == 0
  | some r => n % r == 0

/-- One pass of the for-loop body of NewtonSolver.solve (lines 173-196).
f is the residual function fun (its extra args tuple is irrelevant to the
claims and omitted), upd is the abstract method update_x supplied by the
subclass.  Returns the new state, the current guess, and whether the loop
broke on convergence. -/
def solveIter (f : PyVal → PyVal × PyVal) (upd : PyVal → PyVal → PyVal → ℤ → PyVal)
    (tol alpha : ℤ) (st : SolverState) (x : PyVal) (n : ℕ) :
    SolverState × PyVal × Bool :=
  let gxe := f x
  let g_x := gxe.1
  let error := gxe.2
  let st1 := { st with n := n }
  let st2 :=
    if 0 < st1.history_size then
      { st1 with g_x := insert_vector st1.g_x g_x (some st1.history_size),
                 error := insert_vector st1.error error (some st1.history_size) }
    else st1
  let nsq := error.normSq
  let st3 := { st2 with normSq := some nsq }
  if 0 ≤ tol ∧ nsq < tol * tol then
    ({ st3 with success := true }, x, true)
  else
    let xNew := upd x g_x error alpha
    let st4 := if restartHit st3.n_restart n then { st3 with x := [], g_x := [], error := [] } else st3
    let st5 :=
      if 0 < st4.history_size then
        { st4 with x := insert_vector st4.x xNew (some st4.history_size) }
      else st4
    (st5, xNew, false)

/-- The for-loop of solve: fuel counts the remaining iterations of
range(maxiter), n is the current value of the loop variable self.n. -/
def solveLoop (f : PyVal → PyVal × PyVal) (upd : PyVal → PyVal → PyVal → ℤ → PyVal)
    (tol alpha : ℤ) : ℕ → ℕ → SolverState → PyVal → SolverState × PyVal
  | 0, _, st, x => (st, x)
  | fuel + 1, n, st, x =>
    let r := solveIter f upd tol alpha st x n
    if r.2.2 then (r.1, r.2.1) else solveLoop f upd tol alpha fuel (n + 1) r.1 r.2.1

/-- Lines 168-171 of solve, the prefix executed before the loop: reset the
success flag, copy x0, and push it onto the guess history when history is
retained.  Nothing else on the instance is touched. -/
def solveEntry (st0 : SolverState) (x0 : PyVal) : SolverState :=
  let st := { st0 with success := false }
  if 0 < st.history_size then
    { st with x := insert_vector st.x x0 (some st.history_size) }
  else st

/-- Result of a call to solve: the instance state at return, the returned
root, and the caller-supplied options dictionary as the call left it. -/
structure SolveResult where
  state : SolverState
  root : PyVal
  options : Options
deriving Repr

/-- NewtonSolver.solve (lines 127-204).  upd stands for the abstract
update_x of the concrete subclass. -/
def solve (st0 : SolverState) (f : PyVal → PyVal × PyVal)
    (upd : PyVal → PyVal → PyVal → ℤ → PyVal)
    (x0 : PyVal) (tol : ℤ) (opts : Options) : SolveResult :=
  let opts1 := fillOptions opts
  let maxiter := opts1.maxiter.getD 1000
  let alpha := opts1.alpha.getD 1
  let stA := solveEntry st0 x0
  let r := solveLoop f upd tol alpha maxiter 0 stA x0
  { state := r.1, root := r.2, options := opts1 }

/-- Modelled from the spec, for comparison with the code (claim C1): step
(d) of the solve contract obtains the new guess by calling the update rule
with the full bounded histories of guesses, images and residuals retained
by the solver (most-recent-first) and the step size alpha.  Identical to
solveIter except for the arguments passed to upd. -/
def solveIterSpec (f : PyVal → PyVal × PyVal) (upd : PyVal → PyVal → PyVal → ℤ → PyVal)
    (tol alpha : ℤ) (st : SolverState) (x : PyVal) (n : ℕ) :
    SolverState × PyVal × Bool :=
  let gxe := f x
  let g_x := gxe.1
  let error := gxe.2
  let st1 := { st with n := n }
  let st2 :=
    if 0 < st1.history_size then
      { st1 with g_x := insert_vector st1.g_x g_x (some st1.history_size),
                 error := insert_vector st1.error error (some st1.history_size) }
    else st1
  let nsq := error.normSq
  let st3 := { st2 with normSq := some nsq }
  if 0 ≤ tol ∧ nsq < tol * tol then
    ({ st3 with success := true }, x, true)
  else
    let xNew := upd (PyVal.lst st3.x) (PyVal.lst st3.g_x) (PyVal.lst st3.error) alpha
    let st4 := if restartHit st3.n_restart n then { st3 with x := [], g_x := [], error := [] } else st3
    let st5 :=
      if 0 < st4.history_size then
        { st4 with x := insert_vector st4.x xNew (some st4.history_size) }
      else st4
    (st5, xNew, false)

/-- Loop of the spec-modelled solve (claim C1). -/
def solveLoopSpec (f : PyVal → PyVal × PyVal) (upd : PyVal → PyVal → PyVal → ℤ → PyVal)
    (tol alpha : ℤ) : ℕ → ℕ → SolverState → PyVal → SolverState × PyVal
  | 0, _, st, x => (st, x)
  | fuel + 1, n, st, x =>
    let r := solveIterSpec f upd tol alpha st x n
    if r.2.2 then (r.1, r.2.1) else solveLoopSpec f upd tol alpha fuel (n + 1) r.1 r.2.1

/-- Spec-modelled solve (claim C1): as solve, but the update rule receives
the histories. -/
def solveSpec (st0 : SolverState) (f : PyVal → PyVal × PyVal)
    (upd : PyVal → PyVal → PyVal → ℤ → PyVal)
    (x0 : PyVal) (tol : ℤ) (opts : Options) : SolveResult :=
  let opts1 := fillOptions opts
  let maxiter := opts1.maxiter.getD 1000
  let alpha := opts1.alpha.getD 1
  let stA := solveEntry st0 x0
  let r := solveLoopSpec f upd tol alpha maxiter 0 stA x0
  { state := r.1, root := r.2, options := opts1 }

/-- An update rule that returns the Python list of its three vector
arguments, making the arguments actually passed by solve observable in
the returned root. -/
def echo_update (x g_x error : PyVal) (alpha : ℤ) : PyVal :=
  PyVal.lst [x, g_x, error]

/-- A constant residual function: the image is the array 2 and the error
the array 1 whatever the guess. -/
def const_fun (x : PyVal) : PyVal × PyVal :=
  (PyVal.arr [2], PyVal.arr [1])

/-- An update rule that proposes the current image as the next guess. -/
def g_only (x g_x error : PyVal) (alpha : ℤ) : PyVal := g_x

end NewtonSolver

/-- Per-block energies: the dict mapping a symmetry-block label to its
array of per-k energies, in insertion order.  kweight.py also tolerates a
bare array instead of a dict, a branch no claim exercises. -/
def KEnergies : Type := List (String × List ℝ)

/-- Per-block integration weights, same layout as the energies dict. -/
def KWeights : Type := List (String × List ℝ)

/-- The smearing method bound to self.smear_function at construction. -/
inductive SmearMethod where
  | fermi
  | gaussian
  | methfessel_paxton
deriving DecidableEq, Repr

/-- Attributes of a SmearingKWeight instance.  An Option field is none
while the underlying Python attribute has not yet been assigned (reading
it then raises AttributeError).  The field weights_attr models
self._weights, which the weights property reads but which no method ever
assigns; the computed weights dict is stored in self._weight (field
weight). -/
structure SmearingKWeight where
  beta : ℝ
  mu : Option ℝ
  n_target : Option ℝ
  smear_function : SmearMethod
  energies : Option KEnergies
  n_k : Option ℕ
  weight : Option KWeights
  weights_attr : Option KWeights

namespace SmearingKWeight

/-- SmearingKWeight.__init__ (kweight.py lines 23-35): stores beta, mu and
n_target unchecked, then selects the smearing function from the method
string, raising ValueError on an unrecognized selector. -/
def init (beta : ℝ) (mu n_target : Option ℝ) (method : String) : Except String SmearingKWeight :=
  if method = ("fermi") then
    Except.ok { beta := beta, mu := mu, n_target := n_target, smear_function := SmearMethod.fermi,
                energies := none, n_k := none, weight := none, weights_attr := none }
  else if method = ("gaussian") then
    Except.ok { beta := beta, mu := mu, n_target := n_target, smear_function := SmearMethod.gaussian,
                energies := none, n_k := none, weight := none, weights_attr := none }
  else if method = ("methfessel-paxton") then
    Except.ok { beta := beta, mu := mu, n_target := n_target,
                smear_function := SmearMethod.methfessel_paxton,
                energies := none, n_k := none, weight := none, weights_attr := none }
  else
    Except.error ("ValueError: Unrecoganized smearing function !")

/-- SmearingKWeight.fermi (lines 37-40), elementwise on one energy, with
the local e = energies - mu inlined: exp(-beta*e*(e>0))/(1+exp(-beta*|e|)),
where the boolean (e>0) is the 0/1 indicator. -/
noncomputable def fermi (energies beta mu : ℝ) : ℝ :=
  Real.exp (-beta * (energies - mu) * (if 0 < energies - mu then 1 else 0)) /
    (1 + Real.exp (-beta * |energies - mu|))

/-- SmearingKWeight.gaussian (lines 42-45), elementwise; scipy.special.erfc
is an external collaborator and is passed in as a parameter. -/
noncomputable def gaussian (erfc : ℝ → ℝ) (energies beta mu : ℝ) : ℝ :=
  0.5 * erfc (beta * (energies - mu))

/-- Physicists Hermite polynomials as produced by scipy.special.hermite:
H 0 = 1, H 1 = 2x, H (n+2) x = 2 x H (n+1) x - 2 (n+1) H n x. -/
noncomputable def physHermite : ℕ → ℝ → ℝ
  | 0, _ => 1
  | 1, x => 2 * x
  | n + 2, x => 2 * x * physHermite (n + 1) x - 2 * (n + 1) * physHermite n x

/-- The coefficient A_n of methfessel_paxton (line 52-53). -/
noncomputable def mpA (n : ℕ) : ℝ :=
  (-1) ^ n / (n.factorial * 4 ^ n * Real.sqrt Real.pi)

/-- SmearingKWeight.methfessel_paxton (lines 47-61), elementwise, with the
order N explicit (Python default N=1).  The Python for-loop over
n in range(1, N+1) is the list sum below. -/
noncomputable def methfessel_paxton (erfc : ℝ → ℝ) (energies beta mu : ℝ) (N : ℕ) : ℝ :=
  let x := beta * (energies - mu)
  0.5 * erfc x +
    ((List.range N).map (fun k => mpA (k + 1) * physHermite (2 * (k + 1) - 1) x *
      Real.exp (-x ^ 2))).sum

/-- Dispatch through the bound method self.smear_function, elementwise. -/
noncomputable def smearEval (erfc : ℝ → ℝ) : SmearMethod → ℝ → ℝ → ℝ → ℝ
  | SmearMethod.fermi => fermi
  | SmearMethod.gaussian => gaussian erfc
  | SmearMethod.methfessel_paxton => fun e b m => methfessel_paxton erfc e b m 1

/-- SmearingKWeight.update_n_k (lines 68-78), dict branch: sets self._n_k
to the k-count of the first block, then checks every block against it,
raising ValueError on a mismatch.  The error carries the instance state at
the raise (n_k already overwritten).  An empty dict would raise
StopIteration at next(iter(...)) before any mutation. -/
def update_n_k (st : SmearingKWeight) : Except (String × SmearingKWeight) (SmearingKWeight × ℕ) :=
  match st.energies with
  | none => Except.error (("AttributeError: _energies"), st)
  | some [] => Except.error (("StopIteration"), st)
  | some ((_, es0) :: rest) =>
    let st1 := { st with n_k := some es0.length }
    if rest.all (fun p => p.2.length == es0.length) then
      Except.ok (st1, es0.length)
    else
      Except.error (("ValueError: Blocks must be on the same sized grid !"), st1)

/-- SmearingKWeight.update_energies (lines 63-66): stores the new energies
dict first, then recomputes n_k; a raise from update_n_k therefore leaves
the new energies (and possibly a new n_k) behind on the instance. -/
def update_energies (st : SmearingKWeight) (energies : KEnergies) :
    Except (String × SmearingKWeight) (SmearingKWeight × KEnergies) :=
  match update_n_k { st with energies := some energies } with
  | Except.error p => Except.error p
  | Except.ok (st1, _) => Except.ok (st1, energies)

/-- SmearingKWeight.update_mu (lines 80-98): scipy.optimize.brentq is an
external collaborator, so the chemical potential it returns is a parameter
mu_root of the model; theorems about the success path hypothesize the root
property through target_function below.  The method stores the root in
self._mu. -/
def update_mu (st : SmearingKWeight) (mu_root : ℝ) : SmearingKWeight × ℝ :=
  ({ st with mu := some mu_root }, mu_root)

/-- The closure target_function inside update_mu (lines 92-96):
sum over blocks of sum_k smear(e, beta, mu) / n_k, minus n_target.  The
fallthrough 0 for unset attributes is unreachable in the theorems, which
always run it on a state produced by update_weights. -/
noncomputable def target_function (erfc : ℝ → ℝ) (st : SmearingKWeight) (mu : ℝ) : ℝ :=
  match st.energies, st.n_k, st.n_target with
  | some ens, some nk, some t =>
    (ens.map (fun p =>
      (p.2.map (fun en => smearEval erfc st.smear_function en st.beta mu)).sum / (nk : ℝ))).sum - t
  | _, _, _ => 0

/-- SmearingKWeight.update_weights (lines 100-119): store the energies
(recomputing n_k), solve for mu when n_target is configured (mu_root being
the value brentq returns), then fill the per-block weights dict
self._weight with smear(energies[bl], beta, mu) / n_k.  When neither mu
nor n_target was configured, self.mu is None and numpy raises a TypeError
inside the smearing function. -/
noncomputable def update_weights (erfc : ℝ → ℝ) (st : SmearingKWeight) (energies : KEnergies)
    (mu_root : ℝ) : Except (String × SmearingKWeight) (SmearingKWeight × KWeights) :=
  match update_energies st energies with
  | Except.error p => Except.error p
  | Except.ok (st1, _) =>
    let st2 := if st1.n_target.isSome then (update_mu st1 mu_root).1 else st1
    match st2.mu, st2.n_k with
    | some mu, some nk =>
      let w := energies.map (fun p =>
        (p.1, p.2.map (fun en => smearEval erfc st2.smear_function en st2.beta mu / (nk : ℝ))))
      Except.ok ({ st2 with weight := some w }, w)
    | _, _ => Except.error (("TypeError: mu is None"), st2)

/-- The weights property (lines 141-143): returns self._weights, an
attribute no method ever assigns (the computed dict lives in self._weight),
so in Python this read raises AttributeError; none models that. -/
def weights (st : SmearingKWeight) : Option KWeights := st.weights_attr

/-- Sum of the weights over all blocks and all k-points. -/
noncomputable def sumWeights (w : KWeights) : ℝ := (w.map (fun p => p.2.sum)).sum

/-- Number of symmetry blocks in a weights dict. -/
def blockCount (w : KWeights) : ℕ := w.length

end SmearingKWeight

/-- Stand-in for the external scipy.special.erfc in runs that use the
fermi method, where it is never consulted. -/
def erfcStub : ℝ → ℝ := fun _ => 0

/-- The claim predicate of the exactly-one rule: precisely one of mu and
n_target is supplied. -/
def exactlyOne (mu n_target : Option ℝ) : Bool := mu.isSome != n_target.isSome

/-- A one-iteration run of solve (maxiter 1, tol 0, default history and
restart configuration) with the echoing update rule, so that the root
returned is exactly the triple of vector arguments the update rule was
called with. -/
def c1runCode : NewtonSolver.SolveResult :=
  NewtonSolver.solve (NewtonSolver.newSolver 6 none) NewtonSolver.const_fun
    NewtonSolver.echo_update (NewtonSolver.PyVal.arr [0]) 0 ⟨some 1, none⟩

/-- The same run through the spec-modelled solve, whose update rule
receives the history lists. -/
def c1runSpec : NewtonSolver.SolveResult :=
  NewtonSolver.solveSpec (NewtonSolver.newSolver 6 none) NewtonSolver.const_fun
    NewtonSolver.echo_update (NewtonSolver.PyVal.arr [0]) 0 ⟨some 1, none⟩

/-- Claim C1, code bug.  In the non-converged iteration of the run, solve
calls the update rule with the current guess, image and residual (single
arrays), not with the bounded histories: the echoed argument triple is the
list of the three arrays of iteration 0, whereas at that moment the
histories held by the solver were the singleton lists around those arrays,
as the spec-modelled solve shows.  This contradicts the documented
update_x contract (its docstring describes every argument as the full
history). -/
theorem c1_update_rule_gets_current_iterate :
    c1runCode.root =
      NewtonSolver.PyVal.lst [NewtonSolver.PyVal.arr [0], NewtonSolver.PyVal.arr [2],
        NewtonSolver.PyVal.arr [1]] ∧
    c1runSpec.root =
      NewtonSolver.PyVal.lst [NewtonSolver.PyVal.lst [NewtonSolver.PyVal.arr [0]],
        NewtonSolver.PyVal.lst [NewtonSolver.PyVal.arr [2]],
        NewtonSolver.PyVal.lst [NewtonSolver.PyVal.arr [1]]] ∧
    c1runCode.root ≠ c1runSpec.root := by
  refine ⟨rfl, rfl, ?_⟩
  rw [show c1runCode.root = NewtonSolver.PyVal.lst [NewtonSolver.PyVal.arr [0],
    NewtonSolver.PyVal.arr [2], NewtonSolver.PyVal.arr [1]] from rfl]
  rw [show c1runSpec.root = NewtonSolver.PyVal.lst [NewtonSolver.PyVal.lst
    [NewtonSolver.PyVal.arr [0]], NewtonSolver.PyVal.lst [NewtonSolver.PyVal.arr [2]],
    NewtonSolver.PyVal.lst [NewtonSolver.PyVal.arr [1]]] from rfl]
  simp

/-- A one-iteration run of solve with the default (infinite) n_restart and
history_size 6, on a residual that does not converge at tol 0. -/
def c2run : NewtonSolver.SolveResult :=
  NewtonSolver.solve (NewtonSolver.newSolver 6 none) NewtonSolver.const_fun
    NewtonSolver.g_only (NewtonSolver.PyVal.arr [0]) 0 ⟨some 1, none⟩

/-- Claim C2 counterexample.  With n_restart at its default infinite value
the claim predicts the histories are never discarded, so after this run
the image history would be the singleton of the inserted image arr [2].
Instead, iteration n = 0 satisfies (n mod inf) == 0 (Python evaluates
0 % inf to 0) and all three histories are cleared: the final image and
residual histories are empty, and the guess history holds only the guess
re-inserted after the clear. -/
theorem c2_counterexample_histories_cleared_with_default_restart :
    (NewtonSolver.newSolver 6 none).n_restart = none ∧
    c2run.state.g_x = [] ∧
    c2run.state.error = [] ∧
    c2run.state.g_x ≠ [NewtonSolver.PyVal.arr [2]] := by
  refine ⟨rfl, rfl, rfl, ?_⟩
  rw [show c2run.state.g_x = [] from rfl]
  simp

/-- Claim C2, amended.  The restart test of line 190 holds exactly at
iteration n = 0 when n_restart is infinite (since 0 % inf == 0), and at
n % n_restart == 0 when it is finite; consequently, with the default
infinite n_restart, every iteration n >= 1 leaves the image and residual
histories exactly as the insertions of that iteration built them (they
are never discarded after iteration 0). -/
theorem c2_amended_restart_clears_iff :
    (∀ n, NewtonSolver.restartHit none n = true ↔ n = 0) ∧
    (∀ r n, NewtonSolver.restartHit (some r) n = true ↔ n % r = 0) ∧
    (∀ f u tol alpha st x n, st.n_restart = none → 1 ≤ n → 0 < st.history_size →
      (NewtonSolver.solveIter f u tol alpha st x n).1.g_x =
          NewtonSolver.insert_vector st.g_x (f x).1 (some st.history_size) ∧
        (NewtonSolver.solveIter f u tol alpha st x n).1.error =
          NewtonSolver.insert_vector st.error (f x).2 (some st.history_size)) := by
  refine ⟨fun n => by simp [NewtonSolver.restartHit],
    fun r n => by simp [NewtonSolver.restartHit], ?_⟩
  intro f u tol alpha st x n hnr hn hhist
  have hr : NewtonSolver.restartHit st.n_restart n = false := by
    rw [hnr]; simp [NewtonSolver.restartHit]; omega
  simp only [NewtonSolver.solveIter, hr, hhist, if_pos, Bool.false_eq_true, if_false]
  split <;> simp

/-- Witness for the amended claim C2, at the concrete non-converged
iteration n = 1 of the default configuration. -/
theorem c2_amended_restart_clears_iff_witness :
    (NewtonSolver.solveIter NewtonSolver.const_fun NewtonSolver.g_only 0 1
        (NewtonSolver.newSolver 6 none) (NewtonSolver.PyVal.arr [0]) 1).1.g_x =
      NewtonSolver.insert_vector (NewtonSolver.newSolver 6 none).g_x
        (NewtonSolver.const_fun (NewtonSolver.PyVal.arr [0])).1 (some 6) ∧
    (NewtonSolver.solveIter NewtonSolver.const_fun NewtonSolver.g_only 0 1
        (NewtonSolver.newSolver 6 none) (NewtonSolver.PyVal.arr [0]) 1).1.error =
      NewtonSolver.insert_vector (NewtonSolver.newSolver 6 none).error
        (NewtonSolver.const_fun (NewtonSolver.PyVal.arr [0])).2 (some 6) :=
  c2_amended_restart_clears_iff.2.2 NewtonSolver.const_fun NewtonSolver.g_only 0 1
    (NewtonSolver.newSolver 6 none) (NewtonSolver.PyVal.arr [0]) 1 rfl (by decide) (by decide)

/-- Step preservation for the history buffer: one insertion with a finite
cap m keeps the length at most m - 1. -/
theorem insert_vector_length_le {α : Type} (m : ℕ) (hm : 1 ≤ m) (l : List α) (a : α)
    (hl : l.length ≤ m - 1) :
    (NewtonSolver.insert_vector l a (some m)).length ≤ m - 1 := by
  unfold NewtonSolver.insert_vector
  simp only
  split
  · simp only [List.length_dropLast, List.length_cons]
    omega
  · simp only [List.length_cons] at *
    omega

/-- Claim C8, confirmed.  For a finite cap m >= 1 and a starting list of
length at most m - 1, every prefix of a sequence of insertions through
NewtonSolver._insert_vector leaves the length at most m - 1 (eviction of
the oldest element fires whenever the post-insert length reaches or
exceeds m), so the length never reaches m. -/
theorem c8_insert_keeps_length_below_max {α : Type} (m : ℕ) (hm : 1 ≤ m)
    (init : List α) (hinit : init.length ≤ m - 1) (elems : List α) (k : ℕ) :
    ((elems.take k).foldl (fun v e => NewtonSolver.insert_vector v e (some m)) init).length
      ≤ m - 1 := by
  generalize elems.take k = l
  induction l generalizing init with
  | nil => simpa using hinit
  | cons e es ih =>
    simp only [List.foldl_cons]
    exact ih _ (insert_vector_length_le m hm init e hinit)

/-- Witness for claim C8: three insertions with cap 2 starting from the
empty list end (and stay) at length at most 1. -/
theorem c8_insert_keeps_length_below_max_witness :
    ((([1, 2, 3] : List ℕ).take 3).foldl
        (fun v e => NewtonSolver.insert_vector v e (some 2)) ([] : List ℕ)).length ≤ 2 - 1 :=
  c8_insert_keeps_length_below_max 2 (by decide) [] (by decide) [1, 2, 3] 3

/-- Claim C9, confirmed.  The option-normalization prefix of solve writes
the defaults into the caller-supplied dictionary when the keys are absent
(the caller observes a changed dictionary), solve hands back the caller
dictionary in exactly that filled state, and a call omitting the options
argument operates on the one shared default dictionary, whose state is
threaded to later calls. -/
theorem c9_solve_mutates_options :
    (∀ o : NewtonSolver.Options, o.maxiter = none →
      (NewtonSolver.fillOptions o).maxiter = some 1000 ∧ NewtonSolver.fillOptions o ≠ o) ∧
    (∀ o : NewtonSolver.Options, o.alpha = none →
      (NewtonSolver.fillOptions o).alpha = some 1 ∧ NewtonSolver.fillOptions o ≠ o) ∧
    (∀ st f u x0 tol o,
      (NewtonSolver.solve st f u x0 tol o).options = NewtonSolver.fillOptions o) ∧
    (∀ d : NewtonSolver.Options, d.maxiter = none →
      (NewtonSolver.sharedDefaultAfterCall d).maxiter = some 1000) ∧
    NewtonSolver.sharedDefaultAfterCall NewtonSolver.defaultOptions =
      NewtonSolver.defaultOptions := by
  refine ⟨?_, ?_, fun st f u x0 tol o => rfl, ?_, rfl⟩
  · intro o h
    refine ⟨by simp [NewtonSolver.fillOptions, h], fun he => ?_⟩
    have := congrArg NewtonSolver.Options.maxiter he
    simp [NewtonSolver.fillOptions, h] at this
  · intro o h
    refine ⟨by simp [NewtonSolver.fillOptions, h], fun he => ?_⟩
    have := congrArg NewtonSolver.Options.alpha he
    simp [NewtonSolver.fillOptions, h] at this
  · intro d h
    simp [NewtonSolver.sharedDefaultAfterCall, NewtonSolver.fillOptions, h]

/-- Witness for claim C9: a dictionary missing both keys is changed by the
call and afterwards holds maxiter = 1000. -/
theorem c9_solve_mutates_options_witness :
    (NewtonSolver.fillOptions ⟨none, none⟩).maxiter = some 1000 ∧
    NewtonSolver.fillOptions ⟨none, none⟩ ≠ (⟨none, none⟩ : NewtonSolver.Options) :=
  c9_solve_mutates_options.1 ⟨none, none⟩ rfl

/-- Claim C10, confirmed.  The entry prefix of solve (lines 168-171)
resets only the success flag: the image and residual histories, the
iteration counter, the stored norm and the configuration are untouched,
and the guess history is only extended by the insertion of the new x0
(never cleared), so a second call on the same instance starts from the
histories the previous call left behind.  A solve call whose maxiter is 0
returns exactly this entry state. -/
theorem c10_solve_entry_resets_only_success :
    (∀ st0 x0, (NewtonSolver.solveEntry st0 x0).success = false ∧
      (NewtonSolver.solveEntry st0 x0).g_x = st0.g_x ∧
      (NewtonSolver.solveEntry st0 x0).error = st0.error ∧
      (NewtonSolver.solveEntry st0 x0).n = st0.n ∧
      (NewtonSolver.solveEntry st0 x0).normSq = st0.normSq ∧
      (NewtonSolver.solveEntry st0 x0).history_size = st0.history_size ∧
      (NewtonSolver.solveEntry st0 x0).n_restart = st0.n_restart ∧
      (NewtonSolver.solveEntry st0 x0).x =
        (if 0 < st0.history_size then
          NewtonSolver.insert_vector st0.x x0 (some st0.history_size)
         else st0.x)) ∧
    (∀ st0 f u x0 tol a,
      (NewtonSolver.solve st0 f u x0 tol ⟨some 0, a⟩).state = NewtonSolver.solveEntry st0 x0 ∧
      (NewtonSolver.solve st0 f u x0 tol ⟨some 0, a⟩).root = x0) := by
  refine ⟨fun st0 x0 => ?_, fun st0 f u x0 tol a => ⟨rfl, rfl⟩⟩
  unfold NewtonSolver.solveEntry
  split <;> simp_all

/-- Two symmetry blocks, one k-point each, both energies at 0. -/
def ensEx : KEnergies := [(("up"), [(0 : ℝ)]), (("dn"), [(0 : ℝ)])]

/-- Two blocks on mismatched k-grids (2 k-points against 1). -/
def ensMismatch : KEnergies := [(("up"), [(0 : ℝ), 0]), (("dn"), [(0 : ℝ)])]

/-- A fermi instance constructed with a fixed chemical potential mu = 0
(what init beta=1 mu=0 method=fermi returns). -/
def kwMu : SmearingKWeight :=
  { beta := 1, mu := some 0, n_target := none, smear_function := SmearMethod.fermi,
    energies := none, n_k := none, weight := none, weights_attr := none }

/-- Claim C3 counterexample.  Constructing with the recognized method
fermi and with neither mu nor n_target supplied raises nothing, so the
claimed equivalence (error iff bad method or exactly-one rule violated)
fails at this input: the exactly-one rule is violated yet construction
succeeds. -/
theorem c3_counterexample_init_accepts_neither :
    (SmearingKWeight.init 1 none none ("fermi")).isOk = true ∧
    exactlyOne none none = false ∧
    ¬ (((SmearingKWeight.init 1 none none ("fermi")).isOk = false) ↔
        (¬ ((("fermi") : String) = ("fermi") ∨ (("fermi") : String) = ("gaussian") ∨
            (("fermi") : String) = ("methfessel-paxton")) ∨
          exactlyOne none none = false)) := by
  refine ⟨rfl, rfl, fun hiff => ?_⟩
  have hfalse : (SmearingKWeight.init 1 none none ("fermi")).isOk = false :=
    hiff.mpr (Or.inr rfl)
  rw [show (SmearingKWeight.init 1 none none ("fermi")).isOk = true from rfl] at hfalse
  cases hfalse

/-- Claim C3, amended.  Construction raises exactly when the smearing
method selector is unrecognized; the mu / n_target exactly-one rule is not
checked at construction (neither both-supplied nor neither-supplied
raises). -/
theorem c3_amended_init_error_iff_bad_method (beta : ℝ) (mu n_target : Option ℝ)
    (method : String) :
    (SmearingKWeight.init beta mu n_target method).isOk = false ↔
      ¬ (method = ("fermi") ∨ method = ("gaussian") ∨ method = ("methfessel-paxton")) := by
  unfold SmearingKWeight.init
  split_ifs with h1 h2 h3 <;> simp_all [Except.isOk, Except.toBool]

/-- Claim C4 counterexample.  Calling update_weights with blocks on
mismatched k-grids does raise the grid ValueError, but the instance is
left partially mutated: the cached energies are already the new mapping
and the cached k-point count is already the first block count, both
different from their values before the call. -/
theorem c4_counterexample_partial_mutation_on_mismatch :
    SmearingKWeight.update_weights erfcStub
        { kwMu with energies := some ensEx, n_k := some 1 } ensMismatch 0 =
      Except.error (("ValueError: Blocks must be on the same sized grid !"),
        { kwMu with energies := some ensMismatch, n_k := some 2 }) ∧
    some ensMismatch ≠ some ensEx ∧
    (some 2 : Option ℕ) ≠ some 1 := by
  refine ⟨rfl, fun h => ?_, by decide⟩
  simp only [Option.some.injEq, ensMismatch, ensEx] at h
  injection h with h1 _
  injection h1 with _ hb
  have hlen := congrArg List.length hb
  simp at hlen

/-- Claim C4, amended.  On mismatched k-grids update_weights raises the
grid ValueError, and the instance state at the raise is the old state
with the energies overwritten by the new mapping and n_k overwritten by
the first block k-count; every other attribute (mu, weight, and the rest)
is unchanged, as the explicit record update shows. -/
theorem c4_amended_mismatch_error_state (erfc : ℝ → ℝ) (st : SmearingKWeight)
    (bl0 : String) (es0 : List ℝ) (rest : KEnergies) (mu_root : ℝ)
    (hmis : rest.all (fun p => p.2.length == es0.length) = false) :
    SmearingKWeight.update_weights erfc st ((bl0, es0) :: rest) mu_root =
      Except.error (("ValueError: Blocks must be on the same sized grid !"),
        { st with energies := some ((bl0, es0) :: rest), n_k := some es0.length }) := by
  unfold SmearingKWeight.update_weights SmearingKWeight.update_energies
    SmearingKWeight.update_n_k
  simp [hmis]

/-- Witness for the amended claim C4, at the concrete mismatched input. -/
theorem c4_amended_mismatch_error_state_witness :
    SmearingKWeight.update_weights erfcStub
        { kwMu with energies := some ensEx, n_k := some 1 }
        ((("up"), [(0 : ℝ), 0]) :: [(("dn"), [(0 : ℝ)])]) 0 =
      Except.error (("ValueError: Blocks must be on the same sized grid !"),
        { { kwMu with energies := some ensEx, n_k := some 1 } with
            energies := some ((("up"), [(0 : ℝ), 0]) :: [(("dn"), [(0 : ℝ)])]),
            n_k := some ([(0 : ℝ), 0].length) }) :=
  c4_amended_mismatch_error_state erfcStub
    { kwMu with energies := some ensEx, n_k := some 1 }
    ("up") [(0 : ℝ), 0] [(("dn"), [(0 : ℝ)])] 0 (by decide)

/-- The weights dict computed by the C5 run: each block smeared at the
fixed mu = 0 and divided by the k-count 1. -/
noncomputable def c5w : KWeights :=
  [(("up"), [SmearingKWeight.smearEval erfcStub SmearMethod.fermi 0 1 0 / ((1 : ℕ) : ℝ)]),
   (("dn"), [SmearingKWeight.smearEval erfcStub SmearMethod.fermi 0 1 0 / ((1 : ℕ) : ℝ)])]

/-- The instance state after the successful C5 run. -/
noncomputable def c5state : SmearingKWeight :=
  { beta := 1, mu := some 0, n_target := none, smear_function := SmearMethod.fermi,
    energies := some ensEx, n_k := some 1, weight := some c5w, weights_attr := none }

/-- A successful update_weights call on the fixed-mu fermi instance. -/
noncomputable def c5run : Except (String × SmearingKWeight) (SmearingKWeight × KWeights) :=
  SmearingKWeight.update_weights erfcStub kwMu ensEx 0

/-- Claim C5, code bug.  After a successful update_weights call the
chemical potential and the cached energies are queryable, and the
computed weights dict is stored in the attribute self._weight; but the
weights property reads self._weights, an attribute no method ever
assigns, so the accessor raises AttributeError (none in the model)
instead of returning the just-computed mapping. -/
theorem c5_weights_accessor_never_assigned :
    c5run = Except.ok (c5state, c5w) ∧
    SmearingKWeight.weights c5state = none ∧
    c5state.weight = some c5w ∧
    c5state.mu = some 0 ∧
    c5state.energies = some ensEx :=
  ⟨rfl, rfl, rfl, rfl, rfl⟩

/-- Claim C7, confirmed.  The fermi smearing function of the source is
antisymmetric about the chemical potential in exact real arithmetic. -/
theorem c7_fermi_antisymmetric (e beta mu : ℝ) (h : 0 < beta) :
    SmearingKWeight.fermi e beta mu + SmearingKWeight.fermi (2 * mu - e) beta mu = 1 := by
  unfold SmearingKWeight.fermi
  have hrw : 2 * mu - e - mu = -(e - mu) := by ring
  rw [hrw]
  rcases lt_trichotomy (e - mu) 0 with hlt | heq | hgt
  · rw [if_neg (by linarith), if_pos (by linarith : (0 : ℝ) < -(e - mu)),
      abs_of_neg hlt, abs_neg, abs_of_neg hlt, mul_zero, Real.exp_zero, mul_one]
    have hp : (1 : ℝ) + Real.exp (-beta * -(e - mu)) ≠ 0 := by positivity
    rw [div_add_div_same, div_eq_one_iff_eq hp]
  · rw [heq, neg_zero]
    norm_num [Real.exp_zero]
  · rw [if_pos hgt, if_neg (by linarith : ¬ (0 : ℝ) < -(e - mu)),
      abs_of_pos hgt, abs_neg, abs_of_pos hgt, mul_zero, Real.exp_zero, mul_one]
    have hp : (1 : ℝ) + Real.exp (-beta * (e - mu)) ≠ 0 := by positivity
    rw [div_add_div_same, div_eq_one_iff_eq hp]
    exact add_comm _ _

/-- Witness for claim C7 at e = 0, beta = 1, mu = 0. -/
theorem c7_fermi_antisymmetric_witness :
    (0 : ℝ) < 1 ∧
    SmearingKWeight.fermi 0 1 0 + SmearingKWeight.fermi (2 * 0 - 0) 1 0 = 1 :=
  ⟨by norm_num, c7_fermi_antisymmetric 0 1 0 (by norm_num)⟩

/-- The fermi occupation at the chemical potential is one half. -/
theorem fermi_at_mu : SmearingKWeight.fermi 0 1 0 = 1 / 2 := by
  unfold SmearingKWeight.fermi
  norm_num [Real.exp_zero]

/-- Dividing each summand by a constant divides the sum. -/
theorem list_sum_map_div (l : List ℝ) (f : ℝ → ℝ) (c : ℝ) :
    (l.map (fun x => f x / c)).sum = (l.map f).sum / c := by
  induction l with
  | nil => simp
  | cons a t ih => simp [ih, add_div]

/-- A fermi instance configured with n_target = 1 (beta = 1, no fixed mu). -/
def kwTarget : SmearingKWeight :=
  { beta := 1, mu := none, n_target := some 1, smear_function := SmearMethod.fermi,
    energies := none, n_k := none, weight := none, weights_attr := none }

/-- The weights dict computed by the C6 run at the exact root mu = 0. -/
noncomputable def c6w : KWeights :=
  [(("up"), [SmearingKWeight.smearEval erfcStub SmearMethod.fermi 0 1 0 / ((1 : ℕ) : ℝ)]),
   (("dn"), [SmearingKWeight.smearEval erfcStub SmearMethod.fermi 0 1 0 / ((1 : ℕ) : ℝ)])]

/-- The instance state after the successful C6 run. -/
noncomputable def c6state : SmearingKWeight :=
  { beta := 1, mu := some 0, n_target := some 1, smear_function := SmearMethod.fermi,
    energies := some ensEx, n_k := some 1, weight := some c6w, weights_attr := none }

/-- update_weights on the n_target instance, with mu_root = 0, the exact
root of the chemical-potential target function for these energies. -/
noncomputable def c6run : Except (String × SmearingKWeight) (SmearingKWeight × KWeights) :=
  SmearingKWeight.update_weights erfcStub kwTarget ensEx 0

/-- Claim C6 counterexample.  On a two-block configuration with
n_target = 1 the root finder can return the exact root mu = 0 of the
target function (first conjunct), yet summing the computed weights over
all blocks and k-points and multiplying by the block count yields 2, not
the configured n_target 1: the claimed quantity is off by the factor of
the block count, a deviation of 1 that no root-finder tolerance absorbs. -/
theorem c6_counterexample_block_count_factor :
    SmearingKWeight.target_function erfcStub c6state 0 = 0 ∧
    c6run = Except.ok (c6state, c6w) ∧
    SmearingKWeight.sumWeights c6w * (SmearingKWeight.blockCount c6w : ℝ) = 2 ∧
    kwTarget.n_target = some 1 ∧
    (2 : ℝ) ≠ 1 := by
  refine ⟨?_, rfl, ?_, rfl, by norm_num⟩
  · simp only [SmearingKWeight.target_function, c6state, ensEx, SmearingKWeight.smearEval]
    norm_num [fermi_at_mu]
  · simp only [SmearingKWeight.sumWeights, SmearingKWeight.blockCount, c6w,
      SmearingKWeight.smearEval]
    norm_num [fermi_at_mu]

/-- Claim C6, amended.  For every configuration with n_target set, a
successful update_weights call yields weights whose plain sum over all
blocks and k-points (without the block-count factor) equals
n_target plus the value of the chemical-potential target function at the
mu the root finder returned; hence whenever that value is within the
root-finder tolerance, the sum of the weights reproduces n_target within
the same tolerance. -/
theorem c6_amended_sum_weights_equals_target (erfc : ℝ → ℝ) (st : SmearingKWeight)
    (ens : KEnergies) (mu_root t tol : ℝ) (st1 : SmearingKWeight) (w : KWeights)
    (ht : st.n_target = some t)
    (h : SmearingKWeight.update_weights erfc st ens mu_root = Except.ok (st1, w)) :
    SmearingKWeight.sumWeights w =
      SmearingKWeight.target_function erfc st1 mu_root + t ∧
    (|SmearingKWeight.target_function erfc st1 mu_root| ≤ tol →
      |SmearingKWeight.sumWeights w - t| ≤ tol) := by
  have hmain : SmearingKWeight.sumWeights w =
      SmearingKWeight.target_function erfc st1 mu_root + t := by
    unfold SmearingKWeight.update_weights SmearingKWeight.update_energies
      SmearingKWeight.update_n_k SmearingKWeight.update_mu at h
    cases ens with
    | nil => simp at h
    | cons hd tl =>
      obtain ⟨bl0, es0⟩ := hd
      by_cases hall : tl.all (fun p => p.2.length == es0.length) = true
      · simp only [hall, if_true, ht, Option.isSome_some, if_pos, Except.ok.injEq,
          Prod.mk.injEq] at h
        obtain ⟨hst, hw⟩ := h
        subst hst
        subst hw
        simp only [SmearingKWeight.sumWeights, SmearingKWeight.target_function, ht,
          List.map_map]
        rw [sub_add_cancel]
        congr 1
        refine List.map_congr_left (fun p hp => ?_)
        simp only [Function.comp_apply]
        exact list_sum_map_div p.2 _ _
      · simp [hall] at h
  refine ⟨hmain, fun hb => ?_⟩
  rw [hmain]
  simpa using hb

/-- Witness for the amended claim C6, at the concrete run of the
counterexample input (exact root, tolerance 1). -/
theorem c6_amended_sum_weights_equals_target_witness :
    SmearingKWeight.sumWeights c6w =
      SmearingKWeight.target_function erfcStub c6state 0 + 1 ∧
    (|SmearingKWeight.target_function erfcStub c6state 0| ≤ 1 →
      |SmearingKWeight.sumWeights c6w - 1| ≤ 1) :=
  c6_amended_sum_weights_equals_target erfcStub kwTarget ensEx 0 1 1 c6state c6w rfl rfl
